import Mathlib

/-!
Shallow embedding of the `eaglebush/config` configuration-loading library
(package `cfg`), following the current version of `src/configuration.go`
(the block containing `ErrNoDataFromSource` / `ErrSaveNotLocalFile`) and
`src/flag.go`.  Go strings are modelled as Lean `String`, Go pointers
(`*T`) as `Option T`, Go slices as `List`, and the case conversions of
package `strings` are modelled on the ASCII fragment (every identifier and
literal that the configuration code compares is ASCII).
-/

namespace Cfg

/-- ASCII model of Go `strings.ToLower` (the code only compares ASCII ids). -/
def goToLower (s : String) : String := ⟨s.data.map Char.toLower⟩

/-- ASCII model of Go `strings.ToUpper`. -/
def goToUpper (s : String) : String := ⟨s.data.map Char.toUpper⟩

/-- The ASCII whitespace recognized by Go `strings.TrimSpace`. -/
def isSpaceChar (c : Char) : Bool :=
  c == ' ' || c == '\t' || c == '\n' || c == '\x0d' || c == '\x0b' || c == '\x0c'

/-- ASCII model of Go `strings.TrimSpace`: leading and trailing
whitespace removed. -/
def goTrimSpace (s : String) : String :=
  ⟨((s.data.dropWhile isSpaceChar).reverse.dropWhile isSpaceChar).reverse⟩

/-- Model of Go `strings.EqualFold` on the ASCII fragment: case-insensitive
equality of the two strings. -/
def eqFold (a b : String) : Bool := goToLower a == goToLower b

/-- Model of Go `strings.ReplaceAll(s, c, "")` for a one-character `c`:
every occurrence of the character is removed. -/
def removeAllChar (s : String) (c : Char) : String := ⟨s.data.filter (· ≠ c)⟩

/-- Structure `Flag` from `src/flag.go`: a key together with an optional value. -/
structure Flag where
  Key : String
  Value : Option String
deriving Repr, DecidableEq

/-- Structure `SequenceGeneratorInfo` from `src/configuration.go`. -/
structure SequenceGeneratorInfo where
  UpsertQuery : String
  ResultQuery : String
  NamePlaceHolder : String
deriving Repr, DecidableEq

/-- Structure `DatabaseInfo` from `src/configuration.go` (current version). -/
structure DatabaseInfo where
  GroupID : Option String := none
  ID : String := ""
  ConnectionString : String := ""
  DriverName : String := ""
  StorageType : String := ""
  HelperID : String := ""
  ParameterPlaceholder : String := ""
  ParameterInSequence : Bool := false
  Schema : String := ""
  InterpolateTables : Option Bool := none
  SequenceGenerator : Option SequenceGeneratorInfo := none
  StringEnclosingChar : Option String := none
  StringEscapeChar : Option String := none
  MaxOpenConnection : Option Int := none
  MaxIdleConnection : Option Int := none
  MaxConnectionLifetime : Option Int := none
  MaxConnectionIdleTime : Option Int := none
  Ping : Option Bool := none
  ReservedWordEscapeChar : Option String := none
deriving Repr, DecidableEq

/-- Structure `APIKeyInfo` from `src/configuration.go`. -/
structure APIKeyInfo where
  ID : String := ""
  Name : String := ""
  Key : String := ""
  Token : Option String := none
deriving Repr, DecidableEq

/-- Structure `DirectoryInfo` from `src/configuration.go`. -/
structure DirectoryInfo where
  GroupID : String := ""
  Description : String := ""
  Items : List Flag := []
deriving Repr, DecidableEq

/-- Structure `EndpointInfo` from `src/configuration.go`. -/
structure EndpointInfo where
  ID : String := ""
  Name : String := ""
  Address : String := ""
  GroupID : Option String := none
  Token : Option String := none
deriving Repr, DecidableEq

/-- Structure `OAuthProviderInfo` from `src/configuration.go`. -/
structure OAuthProviderInfo where
  ID : String := ""
  ClientID : String := ""
  ProviderWebUri : String := ""
  ProviderApiUri : String := ""
  ResponseType : String := ""
  Scope : String := ""
deriving Repr, DecidableEq

/-- Structure `NotificationRecipient` from `src/configuration.go`. -/
structure NotificationRecipient where
  ID : String := ""
  Name : String := ""
  Address : String := ""
deriving Repr, DecidableEq

/-- Structure `NotificationInfo` from `src/configuration.go`. -/
structure NotificationInfo where
  ID : String := ""
  APIHost : String := ""
  APIPath : String := ""
  «Type» : String := ""
  Login : String := ""
  Password : String := ""
  Active : Bool := false
  SenderAddress : String := ""
  SenderName : String := ""
  ReplyTo : String := ""
  Recipients : List NotificationRecipient := []
deriving Repr, DecidableEq

/-- Structure `CacheInfo` from `src/configuration.go`. -/
structure CacheInfo where
  Provider : String := ""
  Address : String := ""
  Password : String := ""
  DB : Int := 0
deriving Repr, DecidableEq

/-- Structure `DomainInfo` from `src/configuration.go`. -/
structure DomainInfo where
  Name : String := ""
  Host : String := ""
  Port : Nat := 0
  Path : String := ""
  AuthorizedUser : String := ""
  AuthorizedPassword : String := ""
  Filter : String := ""
deriving Repr, DecidableEq

/-- Structure `QueueInfo` from `src/configuration.go`. -/
structure QueueInfo where
  ID : String := ""
  ServerAddressGroup : List String := []
  Cluster : String := ""
  ClientID : String := ""
  StreamName : String := ""
deriving Repr, DecidableEq

/-- Structure `SourceInfo` from `src/configuration.go`. -/
structure SourceInfo where
  ID : String := ""
  «Type» : String := ""
  Source : String := ""
  Relative : Bool := false
  Error : String := ""
  Success : String := ""
  Extension : String := ""
deriving Repr, DecidableEq

/-- Structure `Configuration` from `src/configuration.go` (current version); Go
pointer fields are `Option`, the unexported `local` flag is a plain `Bool`. -/
structure Configuration where
  APIEndpoints : Option (List EndpointInfo) := none
  APIKeys : Option (List APIKeyInfo) := none
  ApplicationID : Option String := none
  ApplicationName : Option String := none
  ApplicationTheme : Option String := none
  Cache : Option CacheInfo := none
  CertificateFile : Option String := none
  CertificateKey : Option String := none
  CookieDomain : Option String := none
  CrossOriginDomains : Option (List String) := none
  Databases : Option (List DatabaseInfo) := none
  Directories : Option (List DirectoryInfo) := none
  DefaultDatabaseID : Option String := none
  DefaultEndpointID : Option String := none
  DefaultNotificationID : Option String := none
  Domains : Option (List DomainInfo) := none
  FileName : String := ""
  Flags : Option (List Flag) := none
  HostInternalURL : Option String := none
  HostExternalURL : Option String := none
  HostPort : Option Int := none
  JWTSecret : Option String := none
  LicenseSerial : Option String := none
  Notifications : Option (List NotificationInfo) := none
  OAuths : Option (List OAuthProviderInfo) := none
  Queue : Option QueueInfo := none
  ReadTimeout : Option Int := none
  Secure : Option Bool := none
  Sources : Option (List SourceInfo) := none
  WriteTimeout : Option Int := none
  «local» : Bool := false
deriving Repr, DecidableEq

/-- Raw bytes, as fetched from a file or an HTTP response body. -/
abbrev Bytes := List Nat

/-- The error values that `load`, `Save` and `Reload` can surface:
the two sentinel errors declared in `src/configuration.go`
(`ErrNoDataFromSource`, `ErrSaveNotLocalFile`) plus the error classes
forwarded from the external calls (`os.ReadFile`/`http.Get`,
`json.Unmarshal`, `json.MarshalIndent`). -/
inductive ConfigErr where
  | noDataFromSource
  | saveNotLocalFile
  | fetchFailed
  | unmarshalFailed
  | marshalFailed
deriving Repr, DecidableEq

/-- Locality test of `load`: the negation of `strings.HasPrefix(source,
"http://") || strings.HasPrefix(source, "https://")`. -/
def isLocalSource (source : String) : Bool :=
  !("http://".data.isPrefixOf source.data || "https://".data.isPrefixOf source.data)

/-- The document-level default block of `load`: the three default-ID
fields are set to `"DEFAULT"` when nil or empty, `CookieDomain` to
`"localhost"` and `JWTSecret` to `"defaultsecretkey"` when nil. -/
def applyTopDefaults (c : Configuration) : Configuration :=
  let c :=
    if c.DefaultDatabaseID = none ∨ c.DefaultDatabaseID = some "" then
      { c with DefaultDatabaseID := some "DEFAULT" } else c
  let c :=
    if c.DefaultEndpointID = none ∨ c.DefaultEndpointID = some "" then
      { c with DefaultEndpointID := some "DEFAULT" } else c
  let c :=
    if c.DefaultNotificationID = none ∨ c.DefaultNotificationID = some "" then
      { c with DefaultNotificationID := some "DEFAULT" } else c
  let c := if c.CookieDomain = none then { c with CookieDomain := some "localhost" } else c
  if c.JWTSecret = none then { c with JWTSecret := some "defaultsecretkey" } else c

/-- The per-record body of the `for i, cd := range dbs` default loop of
`load` (current version: no sqlserver-specific branch). -/
def defaultDatabase (cd : DatabaseInfo) : DatabaseInfo :=
  let cd :=
    if cd.InterpolateTables = none then { cd with InterpolateTables := some true } else cd
  let cd :=
    if cd.StringEnclosingChar = none ∨ cd.StringEnclosingChar = some "" then
      { cd with StringEnclosingChar := some "'" } else cd
  let cd :=
    if cd.StringEscapeChar = none ∨ cd.StringEscapeChar = some "" then
      { cd with StringEscapeChar := some "\\" } else cd
  let cd :=
    if cd.ReservedWordEscapeChar = none ∨ cd.ReservedWordEscapeChar = some "" then
      { cd with ReservedWordEscapeChar := some "\"" } else cd
  let cd :=
    if cd.ParameterPlaceholder = "" then { cd with ParameterPlaceholder := "?" } else cd
  if cd.StorageType = "" then { cd with StorageType := "SERVER" }
  else { cd with StorageType := goToUpper cd.StorageType }

/-- The `if config.Databases != nil` default pass of `load`: each record
of the slice is rewritten in place (`dbs[i] = cd`). -/
def databasesPass (c : Configuration) : Configuration :=
  match c.Databases with
  | none => c
  | some dbs => { c with Databases := some (dbs.map defaultDatabase) }

/-- The notification loop of `load`: `defnum` starts empty, is set to
`strconv.Itoa(i)` at every index `i > 0`, and records with an empty `ID`
get `"DEFAULT" + defnum`.  `i` is the index of the head of the remaining
list. -/
def notifLoop (i : Nat) (defnum : String) : List NotificationInfo → List NotificationInfo
  | [] => []
  | cn :: rest =>
    let defnum := if i > 0 then Nat.repr i else defnum
    let cn := if cn.ID = "" then { cn with ID := "DEFAULT" ++ defnum } else cn
    cn :: notifLoop (i + 1) defnum rest

/-- The `if config.Notifications != nil` pass of `load`. -/
def notificationsPass (c : Configuration) : Configuration :=
  match c.Notifications with
  | none => c
  | some nfs => { c with Notifications := some (notifLoop 0 "" nfs) }

/-- Function `load` from `src/configuration.go` (current version).  The two
external effects are injected: `fetch` is the outcome of the byte fetch
(`os.ReadFile` for a local path, `http.Get` + `io.ReadAll` otherwise) and
`unmarshal` the outcome of `json.Unmarshal` on the fetched bytes (`none`
models a parse error; on success it yields the parsed exported fields —
`json.Unmarshal` cannot touch the unexported `local` flag, which the code
sets before parsing, nor is `FileName` relevant since the code overwrites
it with `source` afterwards).  The result is the returned document (or
`none`) together with the returned error (or `none`). -/
def load (source : String) (fetch : Except Unit Bytes)
    (unmarshal : Bytes → Option Configuration) :
    Option Configuration × Option ConfigErr :=
  let config : Configuration := { «local» := isLocalSource source }
  match fetch with
  | .error _ => (some config, some .fetchFailed)
  | .ok b =>
    if b.length = 0 then (some config, some .noDataFromSource)
    else
      match unmarshal b with
      | none => (none, some .unmarshalFailed)
      | some parsed =>
        let config := { parsed with «local» := config.«local» }
        let config := applyTopDefaults config
        let config := databasesPass config
        let config := notificationsPass config
        (some { config with FileName := source }, none)

/-- Outcome of `Save`: an error (no write performed after
`ErrSaveNotLocalFile` or a marshalling failure), or the
`os.WriteFile(c.FileName, b, os.ModePerm)` call writing bytes `b` to the
stored path. -/
inductive SaveResult where
  | err (e : ConfigErr)
  | wrote (path : String) (b : Bytes)
deriving Repr, DecidableEq

/-- Method `Save` from `src/configuration.go` (current version).  The external
`json.MarshalIndent` is injected as `marshalIndent`. -/
def Configuration.Save (c : Configuration)
    (marshalIndent : Configuration → Except Unit Bytes) : SaveResult :=
  if c.«local» then
    .err .saveNotLocalFile
  else
    match marshalIndent c with
    | .error _ => .err .marshalFailed
    | .ok b => .wrote c.FileName b

/-- Method `Reload` from `src/configuration.go`: `_, err := load(c.FileName);
return err` — the freshly loaded document is discarded and the receiver
is never written to.  The result pairs the (unchanged) receiver with the
returned error. -/
def Configuration.Reload (c : Configuration) (fetch : Except Unit Bytes)
    (unmarshal : Bytes → Option Configuration) :
    Configuration × Option ConfigErr :=
  (c, (load c.FileName fetch unmarshal).2)

/-- The `for _, v := range *c.Databases` loop of `GetDatabaseInfo`:
exact (case-sensitive) comparison `v.ID == id`. -/
def findDatabase (id : String) : List DatabaseInfo → Option DatabaseInfo
  | [] => none
  | v :: rest => if v.ID == id then some v else findDatabase id rest

/-- Method `GetDatabaseInfo` from `src/configuration.go` (current version),
value-level (see `refFind` for the address-of model of `return &v`). -/
def Configuration.GetDatabaseInfo (c : Configuration) (id : String) :
    Option DatabaseInfo :=
  match c.Databases with
  | none => none
  | some dbs => findDatabase id dbs

/-- The `for _, ep := range eps` loop of `GetEndpointInfo`:
`strings.EqualFold(k, ep.ID)`. -/
def findEndpoint (k : String) : List EndpointInfo → Option EndpointInfo
  | [] => none
  | ep :: rest => if eqFold k ep.ID then some ep else findEndpoint k rest

/-- Method `GetEndpointInfo` from `src/configuration.go` (current version),
value-level.  Go computes `k := strings.ToLower(*c.DefaultEndpointID)`
unconditionally and overwrites it when `id` is non-empty; the nil-pointer
dereference reachable when `id` is non-empty and `DefaultEndpointID` is
nil is modelled by `Option.getD ""` (the value is dead on that path up to
the panic). -/
def Configuration.GetEndpointInfo (c : Configuration) (id : String) :
    Option EndpointInfo :=
  match c.APIEndpoints with
  | none => none
  | some eps =>
    if id.length = 0 ∧ (c.DefaultEndpointID = none ∨ c.DefaultEndpointID = some "") then
      none
    else
      let k := goToLower (c.DefaultEndpointID.getD "")
      let k := if id.length > 0 then goToLower id else k
      findEndpoint k eps

/-- The inner comparison of `Configuration.Flag`: for each separator in
`[]string{"_", "-"}`, the stored key with every occurrence of that
separator removed (`strings.ReplaceAll(f.Key, v, "")`) is compared
case-insensitively against the requested key.  The two variants are tried
one at a time — never with both separators removed at once. -/
def flagVariantMatch (key : String) (f : Flag) : Bool :=
  ['_', '-'].any fun v => eqFold key (removeAllChar f.Key v)

/-- The outer `for _, f := range *c.Flags` loop of `Configuration.Flag`. -/
def flagLoop (key : String) : List Flag → Option Flag
  | [] => none
  | f :: rest => if flagVariantMatch key f then some f else flagLoop key rest

/-- Method `Flag` (the flag lookup) from `src/configuration.go` (current
version): the requested key is trimmed; when nothing matches, a zero-value
flag carrying the trimmed key and a nil value is returned. -/
def Configuration.Flag (c : Configuration) (key : String) : Cfg.Flag :=
  let key := goTrimSpace key
  let ret : Cfg.Flag := { Key := key, Value := none }
  match c.Flags with
  | none => ret
  | some flgs =>
    match flagLoop key flgs with
    | some f => f
    | none => ret

/-- Modelled from the spec: the character class `[A-Z0-9_]` of an
interpolation variable name (spec §4.4; the interpolation helper
`interpolateEnvVars` is documented in the README but its code is not among
the included sources). -/
def isVarChar (c : Char) : Bool :=
  (65 ≤ c.toNat && c.toNat ≤ 90) || (48 ≤ c.toNat && c.toNat ≤ 57) || c == '_'

/-- Modelled from the spec: the scanner of `interpolateEnvVars` (spec
§4.4, README "Internal Helpers"), over an injected environment lookup
(spec §9; `none` models an unset variable).  It scans for `${` followed by
one-or-more `[A-Z0-9_]` characters and `}`; each complete token is
replaced by the environment value of the name between the braces, or by
the empty string when unset; all other text is copied unchanged.
`parseVarToken` recognizes one token at the head of the text, after the
leading dollar sign has been consumed: it yields the variable name and the
text after the closing brace. -/
def parseVarToken (l : List Char) : Option (String × List Char) :=
  match l with
  | '{' :: rest =>
    match rest.takeWhile isVarChar, rest.dropWhile isVarChar with
    | nm :: name, '}' :: tail => some (⟨nm :: name⟩, tail)
    | _, _ => none
  | _ => none

/-- Modelled from the spec: the recursive scan of `interpolateEnvVars`
(spec §4.4); the first argument is recursion fuel, always invoked with at
least the length of the remaining text. -/
def interpGo (env : String → Option String) : Nat → List Char → List Char
  | 0, l => l
  | _ + 1, [] => []
  | fuel + 1, c :: cs =>
    if c = '$' then
      match parseVarToken cs with
      | some (name, tail) => ((env name).getD "").data ++ interpGo env fuel tail
      | none => c :: interpGo env fuel cs
    else c :: interpGo env fuel cs

/-- Modelled from the spec: `interpolateEnvVars` (README "Internal
Helpers", spec §4.4) — pure, total, never an error. -/
def interpolateEnvVars (env : String → Option String) (text : String) : String :=
  ⟨interpGo env text.data.length text.data⟩

/-- Modelled from the spec: the in-memory state of one interpolable field
— the visible (interpolated) text paired with its shadow pre-interpolation
original (spec §3 "Section records", §4.2 step 5; the shadow fields are
not among the included sources). -/
structure InterpField where
  visible : String
  shadow : String
deriving Repr, DecidableEq

/-- Modelled from the spec (§4.2 steps 5–9): on load the original text of
an interpolable field is captured into its shadow and the visible field is
overwritten with the interpolated text. -/
def loadField (env : String → Option String) (raw : String) : InterpField :=
  { visible := interpolateEnvVars env raw, shadow := raw }

/-- Modelled from the spec (§4.3 Save): the shadow original is written
back into the visible field, that restored text is what gets serialized,
and after the write the capture/interpolate step is re-run on the field.
The first component is the persisted text, the second the in-memory field
after the save. -/
def saveField (env : String → Option String) (f : InterpField) :
    String × InterpField :=
  (f.shadow, loadField env f.shadow)

/-- A heap of records: cell addresses are list indices.  This models the Go
address-of semantics in the accessors, which iterate with
`for _, v := range slice` — copying each element into the loop variable
`v` — and return `&v`, the address of the copy, never of the slice
element itself. -/
abbrev Heap (α : Type) := List α

/-- Dereference a cell address. -/
def readCell (h : Heap α) (a : Nat) : Option α := h[a]?

/-- Assign through a cell address. -/
def writeCell (h : Heap α) (a : Nat) (x : α) : Heap α := h.set a x

/-- Model of `for _, v := range slice { if pred(v) { return &v } }; return nil`
with the slice elements living in the cells of `h` listed by `addrs`: on a
match the element is copied into a freshly allocated cell (the loop
variable `v`) and the address of that fresh cell is returned together with the
extended heap. -/
def refFind (h : Heap α) (pred : α → Bool) : List Nat → Option Nat × Heap α
  | [] => (none, h)
  | a :: rest =>
    match readCell h a with
    | none => (none, h)
    | some v => if pred v then (some h.length, h ++ [v]) else refFind h pred rest

/-- The record value the iteration of `refFind` matches, reading the same
cells (no allocation). -/
def refFound (h : Heap α) (pred : α → Bool) : List Nat → Option α
  | [] => none
  | a :: rest =>
    match readCell h a with
    | none => none
    | some v => if pred v then some v else refFound h pred rest

/-- The match predicate of `GetDatabaseInfo`: `v.ID == id`. -/
def dbPred (id : String) (v : DatabaseInfo) : Bool := v.ID == id

/-- The match predicate of the loop of `GetEndpointInfo`:
`strings.EqualFold(k, ep.ID)`. -/
def epPred (k : String) (ep : EndpointInfo) : Bool := eqFold k ep.ID

/-- Method `GetDatabaseInfo` with the Go address-of semantics made
explicit. -/
def GetDatabaseInfoRef (h : Heap DatabaseInfo) (addrs : List Nat) (id : String) :
    Option Nat × Heap DatabaseInfo :=
  refFind h (dbPred id) addrs

/-- The loop of `GetEndpointInfo` with the Go address-of semantics made
explicit (`k` is the already-lowercased requested key). -/
def GetEndpointInfoRef (h : Heap EndpointInfo) (addrs : List Nat) (k : String) :
    Option Nat × Heap EndpointInfo :=
  refFind h (epPred k) addrs

/-- Reading of the Flag normalization that claim C9 states, written from
the words of the claim: the stored key with underscores and dashes (both) stripped. -/
def specFlagKeyStripped (k : String) : String :=
  removeAllChar (removeAllChar k '_') '-'

/-- Example environment used in the concrete interpolation instances:
`H` is bound to `"h"`, `U` to `"u"`, everything else is unset. -/
def envHU : String → Option String := fun s =>
  if s = "H" then some "h" else if s = "U" then some "u" else none

/-- Example heap used in the concrete lookup instances: two database
records in cells 0 and 1. -/
def dbHeapEx : Heap DatabaseInfo := [{ ID := "A" }, { ID := "B" }]

/-- Per-field restatement of the `nil or empty` default conditionals of
`load`, used to decompose the default passes field by field: an absent or
empty optional string is replaced by the default `d`. -/
def fillEmptyOpt (d : String) (o : Option String) : Option String :=
  if o = none ∨ o = some "" then some d else o

/-- Per-field restatement of the plain-string default conditional of
`load`: an empty string is replaced by the default `d`. -/
def fillEmptyStr (d s : String) : String := if s = "" then d else s

/-- Example database record with every defaultable field user-supplied. -/
def dbAllSet : DatabaseInfo where
  ID := "d"
  InterpolateTables := some false
  StringEnclosingChar := some "e"
  StringEscapeChar := some "x"
  ReservedWordEscapeChar := some "r"
  ParameterPlaceholder := "@"
  StorageType := "FILE"

/-- Example document with non-empty defaultable fields, `CookieDomain`
present but empty. -/
def cfgDefaultsSet : Configuration where
  CookieDomain := some ""
  JWTSecret := some "s"
  DefaultDatabaseID := some "db1"

/-!
## Helper lemmas
-/

theorem length_dropWhile_le (p : α → Bool) (l : List α) :
    (l.dropWhile p).length ≤ l.length := by
  induction l with
  | nil => simp
  | cons a t ih =>
    by_cases h : p a
    · rw [List.dropWhile_cons, if_pos h]
      exact Nat.le_succ_of_le ih
    · rw [List.dropWhile_cons, if_neg h]

theorem takeWhile_append_all (p : α → Bool) (l₁ l₂ : List α)
    (h : ∀ c ∈ l₁, p c = true) :
    (l₁ ++ l₂).takeWhile p = l₁ ++ l₂.takeWhile p := by
  induction l₁ with
  | nil => simp
  | cons a t ih => simp_all [List.takeWhile_cons]

theorem dropWhile_append_all (p : α → Bool) (l₁ l₂ : List α)
    (h : ∀ c ∈ l₁, p c = true) :
    (l₁ ++ l₂).dropWhile p = l₂.dropWhile p := by
  induction l₁ with
  | nil => simp
  | cons a t ih => simp_all [List.dropWhile_cons]

theorem parseVarToken_length {cs : List Char} {name : String} {tail : List Char}
    (h : parseVarToken cs = some (name, tail)) : tail.length + 2 ≤ cs.length := by
  unfold parseVarToken at h
  split at h
  · rename_i rest
    split at h
    · rename_i nm nms tail' htw hdw
      cases h
      have := length_dropWhile_le isVarChar rest
      rw [hdw] at this
      simp at this ⊢
      omega
    · exact absurd h (by simp)
  · exact absurd h (by simp)

theorem interpGo_fuel (env : String → Option String) :
    ∀ (fuel₁ : Nat) (l : List Char) (fuel₂ : Nat),
      l.length ≤ fuel₁ → l.length ≤ fuel₂ →
      interpGo env fuel₁ l = interpGo env fuel₂ l := by
  intro fuel₁
  induction fuel₁ with
  | zero =>
    intro l fuel₂ h1 _
    have hl : l = [] := List.length_eq_zero.mp (Nat.le_zero.mp h1)
    subst hl
    cases fuel₂ <;> rfl
  | succ f ih =>
    intro l fuel₂ h1 h2
    cases l with
    | nil => cases fuel₂ <;> rfl
    | cons c cs =>
      cases fuel₂ with
      | zero => simp at h2
      | succ g =>
        simp only [interpGo]
        by_cases hc : c = '$'
        · rw [if_pos hc, if_pos hc]
          cases hp : parseVarToken cs with
          | none =>
            simp only [hp]
            have hcs : cs.length ≤ f := by simp at h1; omega
            have hcs2 : cs.length ≤ g := by simp at h2; omega
            rw [ih cs g hcs hcs2]
          | some nt =>
            obtain ⟨name, tail⟩ := nt
            simp only [hp]
            have hb := parseVarToken_length hp
            have ht1 : tail.length ≤ f := by simp at h1; omega
            have ht2 : tail.length ≤ g := by simp at h2; omega
            rw [ih tail g ht1 ht2]
        · rw [if_neg hc, if_neg hc]
          have hcs : cs.length ≤ f := by simp at h1; omega
          have hcs2 : cs.length ≤ g := by simp at h2; omega
          rw [ih cs g hcs hcs2]

theorem isVarChar_rbrace : isVarChar '}' = false := by decide

theorem parseVarToken_token (name tail : List Char) (hname : name ≠ [])
    (hvar : ∀ c ∈ name, isVarChar c = true) :
    parseVarToken ('{' :: (name ++ '}' :: tail)) = some (⟨name⟩, tail) := by
  cases name with
  | nil => exact absurd rfl hname
  | cons nm nms =>
    have ht : ((nm :: nms) ++ '}' :: tail).takeWhile isVarChar = nm :: nms := by
      rw [takeWhile_append_all _ _ _ hvar, List.takeWhile_cons, isVarChar_rbrace]
      simp
    have hd : ((nm :: nms) ++ '}' :: tail).dropWhile isVarChar = '}' :: tail := by
      rw [dropWhile_append_all _ _ _ hvar, List.dropWhile_cons, isVarChar_rbrace]
      simp
    simp only [parseVarToken]
    rw [ht, hd]
    rfl

theorem interpGo_token_append (env : String → Option String) :
    ∀ (pre : List Char) (name tail : List Char) (fuel : Nat),
      (pre ++ '$' :: '{' :: (name ++ '}' :: tail)).length ≤ fuel →
      '$' ∉ pre → name ≠ [] → (∀ c ∈ name, isVarChar c = true) →
      interpGo env fuel (pre ++ '$' :: '{' :: (name ++ '}' :: tail)) =
        pre ++ ((env ⟨name⟩).getD "").data ++ interpGo env tail.length tail := by
  intro pre
  induction pre with
  | nil =>
    intro name tail fuel hf _ hname hvar
    cases fuel with
    | zero => simp at hf
    | succ f =>
      have hp := parseVarToken_token name tail hname hvar
      simp only [List.nil_append, interpGo, if_pos rfl, hp]
      have ht : tail.length ≤ f := by simp at hf; omega
      rw [interpGo_fuel env f tail tail.length ht (Nat.le_refl _)]
      simp
  | cons p pre ih =>
    intro name tail fuel hf hpre hname hvar
    cases fuel with
    | zero => simp at hf
    | succ f =>
      have hp : ¬ p = '$' := fun h => hpre (h ▸ List.mem_cons_self p pre)
      simp only [List.cons_append, interpGo, if_neg hp, List.append_eq]
      rw [ih name tail f (by simp at hf ⊢; omega)
        (fun h => hpre (List.mem_cons_of_mem _ h)) hname hvar]

theorem interpGo_no_dollar (env : String → Option String) :
    ∀ (fuel : Nat) (l : List Char), '$' ∉ l → interpGo env fuel l = l := by
  intro fuel
  induction fuel with
  | zero => intro l _; rfl
  | succ f ih =>
    intro l h
    cases l with
    | nil => rfl
    | cons c cs =>
      have hc : ¬ c = '$' := fun hh => h (hh ▸ List.mem_cons_self c cs)
      simp only [interpGo, if_neg hc]
      rw [ih cs (fun hh => h (List.mem_cons_of_mem _ hh))]

theorem load_fetch_error (source : String) (unmarshal : Bytes → Option Configuration)
    (e : Unit) :
    load source (.error e) unmarshal =
      (some { «local» := isLocalSource source }, some .fetchFailed) := rfl

theorem load_empty_source (source : String) (unmarshal : Bytes → Option Configuration) :
    load source (.ok []) unmarshal =
      (some { «local» := isLocalSource source }, some .noDataFromSource) := rfl

theorem load_parse_fail (source : String) (b : Bytes)
    (unmarshal : Bytes → Option Configuration) (hb : b ≠ [])
    (hu : unmarshal b = none) :
    load source (.ok b) unmarshal = (none, some .unmarshalFailed) := by
  have hlen : ¬ b.length = 0 := fun h => hb (List.length_eq_zero.mp h)
  simp [load, hlen, hu]

theorem load_ok (source : String) (b : Bytes)
    (unmarshal : Bytes → Option Configuration) (parsed : Configuration)
    (hb : b ≠ []) (hu : unmarshal b = some parsed) :
    load source (.ok b) unmarshal =
      (some { notificationsPass (databasesPass (applyTopDefaults
          { parsed with «local» := isLocalSource source })) with FileName := source },
        none) := by
  have hlen : ¬ b.length = 0 := fun h => hb (List.length_eq_zero.mp h)
  simp [load, hlen, hu]

/-!
## Claim theorems
-/

/-- C1: the claim states that `Save` fails with `ErrSaveNotLocalFile`
exactly for documents of remote (http/https) origin and serializes
local-origin documents to the stored path.  The code does the opposite:
`Save` begins with `if c.local { return ErrSaveNotLocalFile }`, so a
local-origin document is rejected with the not-local error while a
remote-origin document proceeds to the `os.WriteFile` call.  This theorem
evaluates `Save` at both origins, including on documents produced by the
real `load` pipeline. -/
theorem save_locality_inverted :
    Cfg.Configuration.Save { FileName := "config.json", «local» := true }
        (fun _ => .ok [123]) = .err .saveNotLocalFile
    ∧ Cfg.Configuration.Save
        { FileName := "https://example.com/config.json", «local» := false }
        (fun _ => .ok [123])
      = .wrote "https://example.com/config.json" [123]
    ∧ isLocalSource "config.json" = true
    ∧ isLocalSource "https://example.com/config.json" = false
    ∧ ((load "config.json" (.ok [10]) (fun _ => some {})).1.map
        (fun c => c.Save (fun _ => .ok [7]))) = some (.err .saveNotLocalFile)
    ∧ ((load "https://example.com/config.json" (.ok [10]) (fun _ => some {})).1.map
        (fun c => c.Save (fun _ => .ok [7])))
      = some (.wrote "https://example.com/config.json" [7]) := by
  exact ⟨rfl, rfl, by decide, by decide, by decide, by decide⟩

/-- C2 (spec-modelled: the interpolation/shadow machinery is documented in
the README and the spec but is absent from the included sources): loading
an interpolable field captures the raw text into the shadow and shows the
interpolated text; saving persists exactly the raw `${...}` text while the
in-memory field still shows the resolved values afterwards.  The closed
part instantiates the round trip on the connection string
`"Server=${H};User=${U};"` with `H` and `U` set in the environment. -/
theorem interpolation_round_trip :
    (∀ (env : String → Option String) (raw : String),
      (saveField env (loadField env raw)).1 = raw
      ∧ (saveField env (loadField env raw)).2.visible = interpolateEnvVars env raw
      ∧ (saveField env (loadField env raw)).2.shadow = raw)
    ∧ (saveField envHU (loadField envHU "Server=${H};User=${U};")).1
        = "Server=${H};User=${U};"
    ∧ (saveField envHU (loadField envHU "Server=${H};User=${U};")).2.visible
        = "Server=h;User=u;"
    ∧ "Server=h;User=u;" ≠ "Server=${H};User=${U};" := by
  exact ⟨fun env raw => ⟨rfl, rfl, rfl⟩, by decide, by decide, by decide⟩

/-- C4: the claim states that a successful `Reload` mutates the fields of
the existing document in place with the result of re-running `load` on the
stored origin, so holders of a reference observe the refreshed data.  The
code reads `_, err := load(c.FileName); return err`, discarding the
freshly loaded snapshot: here `load` succeeds and yields a document with
`ApplicationName = "new"`, yet `Reload` returns no error and leaves the
receiver with `ApplicationName = "old"`. -/
theorem reload_discards_snapshot :
    Cfg.Configuration.Reload
        { FileName := "config.json", ApplicationName := some "old", «local» := true }
        (.ok [10]) (fun _ => some { ApplicationName := some "new" })
      = ({ FileName := "config.json", ApplicationName := some "old", «local» := true },
          none)
    ∧ ((load "config.json" (.ok [10]) (fun _ => some { ApplicationName := some "new" })).1.map
        (fun c => c.ApplicationName)) = some (some "new") := by
  exact ⟨by decide, by decide⟩

/-- C3 (spec-modelled: `interpolateEnvVars` is documented in the README
and spec §4.4 but its code is absent from the included sources): in any
interpolable text of the form `pre ++ "${" ++ name ++ "}" ++ tail` where
`pre` contains no dollar sign and `name` consists of one or more
`[A-Z0-9_]` characters, the whole token is replaced by the process
environment value of `name` — the empty string when the variable is unset
(`env ⟨name⟩ = none`) — never an error and never the literal left in
place, while text containing no dollar sign at all is returned
untouched. -/
theorem interpolateEnvVars_substitution :
    (∀ (env : String → Option String) (pre name tail : List Char),
      '$' ∉ pre → name ≠ [] → (∀ c ∈ name, isVarChar c = true) →
      interpolateEnvVars env ⟨pre ++ '$' :: '{' :: (name ++ '}' :: tail)⟩
        = ⟨pre⟩ ++ (env ⟨name⟩).getD "" ++ interpolateEnvVars env ⟨tail⟩)
    ∧ (∀ (env : String → Option String) (t : String),
        '$' ∉ t.data → interpolateEnvVars env t = t) := by
  constructor
  · intro env pre name tail hpre hname hvar
    apply String.ext
    rw [String.data_append, String.data_append]
    show interpGo env _ _ = pre ++ ((env ⟨name⟩).getD "").data ++ interpGo env _ _
    exact interpGo_token_append env pre name tail _ (Nat.le_refl _) hpre hname hvar
  · intro env t ht
    apply String.ext
    show interpGo env _ _ = t.data
    exact interpGo_no_dollar env _ t.data ht

/-- Witness for C3: concrete instances — `"Server=${H};"` with `H = "h"`
resolves to `"Server=h;"`, and `"x=${UNSET_XYZ}"` with the variable unset
resolves to `"x="` (empty substitution, no error, no literal left). -/
theorem interpolateEnvVars_substitution_witness :
    (('$' ∉ "Server=".data) ∧ "H".data ≠ [] ∧ (∀ c ∈ "H".data, isVarChar c = true))
    ∧ interpolateEnvVars envHU ⟨"Server=".data ++ '$' :: '{' :: ("H".data ++ '}' :: ";".data)⟩
        = "Server=h;"
    ∧ interpolateEnvVars envHU ⟨"x=".data ++ '$' :: '{' :: ("UNSET_XYZ".data ++ '}' :: [])⟩
        = "x=" := by
  refine ⟨⟨by decide, by decide, by decide⟩, ?_, ?_⟩
  · rw [interpolateEnvVars_substitution.1 envHU "Server=".data "H".data ";".data
      (by decide) (by decide) (by decide)]
    decide
  · rw [interpolateEnvVars_substitution.1 envHU "x=".data "UNSET_XYZ".data []
      (by decide) (by decide) (by decide)]
    decide

/-- C5: `load` returns a nil document exactly when JSON unmarshalling of
the fetched bytes fails; a fetch failure, or a successful fetch of zero
bytes (which yields `ErrNoDataFromSource`), instead returns the
partially-initialized document carrying only the locality flag, together
with the error; and a successful fetch-and-parse returns a document and no
error. -/
theorem load_error_structure :
    ∀ (source : String) (fetch : Except Unit Bytes)
      (unmarshal : Bytes → Option Configuration),
      ((load source fetch unmarshal).1 = none ↔
        ∃ b, fetch = .ok b ∧ b ≠ [] ∧ unmarshal b = none)
      ∧ (∀ e, fetch = .error e →
          load source fetch unmarshal =
            (some { «local» := isLocalSource source }, some .fetchFailed))
      ∧ (fetch = .ok [] →
          load source fetch unmarshal =
            (some { «local» := isLocalSource source }, some .noDataFromSource))
      ∧ (∀ b parsed, fetch = .ok b → b ≠ [] → unmarshal b = some parsed →
          (load source fetch unmarshal).2 = none
          ∧ (load source fetch unmarshal).1 ≠ none) := by
  intro source fetch unmarshal
  rcases fetch with e | b
  · refine ⟨by simp [load_fetch_error], fun _ _ => rfl,
      fun h => by simp at h, fun b parsed h => by simp at h⟩
  · by_cases hb : b = []
    · subst hb
      refine ⟨by simp [load_empty_source], fun e h => by simp at h, fun _ => rfl,
        fun b' parsed h hne _ => ?_⟩
      injection h with h'
      exact absurd h'.symm hne
    · cases hu : unmarshal b with
      | none =>
        have hload := load_parse_fail source b unmarshal hb hu
        refine ⟨?_, fun e h => by simp at h,
          fun h => by injection h with h'; exact absurd h' hb,
          fun b' parsed h _ hu' => ?_⟩
        · rw [hload]
          simp only [true_iff]
          exact ⟨b, rfl, hb, hu⟩
        · injection h with h'
          subst h'
          rw [hu'] at hu
          cases hu
      | some parsed =>
        have hload := load_ok source b unmarshal parsed hb hu
        refine ⟨?_, fun e h => by simp at h,
          fun h => by injection h with h'; exact absurd h' hb,
          fun b' parsed' h hne hu' => ?_⟩
        · constructor
          · intro hx
            rw [hload] at hx
            simp at hx
          · rintro ⟨b', hbeq, hne', hu'⟩
            injection hbeq with h'
            subst h'
            rw [hu'] at hu
            cases hu
        · rw [hload]
          exact ⟨rfl, by simp⟩

/-- Witness for C5: concrete instances of each hypothesis-guarded branch —
a parse failure on one byte yields a nil document, a fetch error on a
remote source yields the locality-only document with the fetch error, the
empty fetch yields `ErrNoDataFromSource`, and a successful parse yields no
error. -/
theorem load_error_structure_witness :
    (load "config.json" (.ok [10]) (fun _ => none)).1 = none
    ∧ load "https://example.com/config.json" (.error ()) (fun _ => none)
        = (some { «local» := isLocalSource "https://example.com/config.json" },
            some .fetchFailed)
    ∧ load "config.json" (.ok []) (fun _ => none)
        = (some { «local» := isLocalSource "config.json" }, some .noDataFromSource)
    ∧ (load "config.json" (.ok [10]) (fun _ => some {})).2 = none := by
  refine ⟨?_, ?_, ?_, ?_⟩
  · exact (load_error_structure "config.json" (.ok [10]) (fun _ => none)).1.mpr
      ⟨[10], rfl, by decide, rfl⟩
  · exact (load_error_structure "https://example.com/config.json" (.error ())
      (fun _ => none)).2.1 () rfl
  · exact (load_error_structure "config.json" (.ok []) (fun _ => none)).2.2.1 rfl
  · exact ((load_error_structure "config.json" (.ok [10]) (fun _ => some {})).2.2.2
      [10] {} rfl (by decide) rfl).1

theorem findDatabase_eq_none (id : String) :
    ∀ (l : List DatabaseInfo), (∀ v ∈ l, v.ID ≠ id) → findDatabase id l = none := by
  intro l h
  induction l with
  | nil => rfl
  | cons v rest ih =>
    simp only [findDatabase]
    rw [if_neg (by simpa using h v (List.mem_cons_self v rest))]
    exact ih (fun w hw => h w (List.mem_cons_of_mem _ hw))

theorem findDatabase_first (id : String) :
    ∀ (l : List DatabaseInfo) (i : Nat) (hi : i < l.length),
      (l.get ⟨i, hi⟩).ID = id →
      (∀ j (hj : j < l.length), j < i → (l.get ⟨j, hj⟩).ID ≠ id) →
      findDatabase id l = some (l.get ⟨i, hi⟩) := by
  intro l
  induction l with
  | nil => intro i hi; simp at hi
  | cons v rest ih =>
    intro i hi hmatch hbefore
    cases i with
    | zero =>
      have hv : (v.ID == id) = true := by simpa using hmatch
      simp only [findDatabase, hv, if_true]
      rfl
    | succ j =>
      have hv : v.ID ≠ id := hbefore 0 (Nat.succ_pos _) (Nat.succ_pos j)
      simp only [findDatabase]
      rw [if_neg (by simpa using hv)]
      exact ih j (by simpa using hi) hmatch
        (fun k hk hki => hbefore (k + 1) (by omega) (by omega))

/-- Counterexample to C6: a document holding a database record with ID
`"Main"`; the case-different request `"main"` matches case-insensitively
(`strings.EqualFold`), yet `GetDatabaseInfo` — which compares with plain
`==`, unlike every sibling accessor — returns nil for it and finds the
record only under the exact casing. -/
theorem getDatabaseInfo_case_sensitive_cex :
    eqFold "main" "Main" = true
    ∧ Cfg.Configuration.GetDatabaseInfo { Databases := some [{ ID := "Main" }] } "main"
        = none
    ∧ Cfg.Configuration.GetDatabaseInfo { Databases := some [{ ID := "Main" }] } "Main"
        = some { ID := "Main" } :=
  ⟨by decide, by decide, by decide⟩

/-- C6 (amended): `GetDatabaseInfo` finds a record by case-SENSITIVE exact
equality of the ID (not by any casing), returning the first match in
document order, and returns nil — not an error — when the collection is
absent or no record matches. -/
theorem getDatabaseInfo_first_exact_match :
    ∀ (c : Configuration) (id : String),
      (c.Databases = none → c.GetDatabaseInfo id = none)
      ∧ (∀ dbs, c.Databases = some dbs →
          ((∀ v ∈ dbs, v.ID ≠ id) → c.GetDatabaseInfo id = none)
          ∧ (∀ i (hi : i < dbs.length), (dbs.get ⟨i, hi⟩).ID = id →
              (∀ j (hj : j < dbs.length), j < i → (dbs.get ⟨j, hj⟩).ID ≠ id) →
              c.GetDatabaseInfo id = some (dbs.get ⟨i, hi⟩))) := by
  intro c id
  refine ⟨fun h => by simp [Configuration.GetDatabaseInfo, h], ?_⟩
  intro dbs hdbs
  constructor
  · intro h
    simp only [Configuration.GetDatabaseInfo, hdbs]
    exact findDatabase_eq_none id dbs h
  · intro i hi hm hb
    simp only [Configuration.GetDatabaseInfo, hdbs]
    exact findDatabase_first id dbs i hi hm hb

/-- Witness for C6 (amended): a collection with two records of ID `"Main"`
— the exact-cased request returns the first of them. -/
theorem getDatabaseInfo_first_exact_match_witness :
    (([{ ID := "Main" }, { ID := "Main", ConnectionString := "dup" }] :
        List DatabaseInfo).get ⟨0, by decide⟩).ID = "Main"
    ∧ Cfg.Configuration.GetDatabaseInfo
        { Databases := some [{ ID := "Main" }, { ID := "Main", ConnectionString := "dup" }] }
        "Main" = some { ID := "Main" } := by
  refine ⟨by decide, ?_⟩
  exact ((getDatabaseInfo_first_exact_match
      { Databases := some [{ ID := "Main" }, { ID := "Main", ConnectionString := "dup" }] }
      "Main").2 _ rfl).2 0 (by decide) (by decide)
    (fun j hj hji => absurd hji (by omega))

set_option maxHeartbeats 1000000 in
theorem defaultDatabase_eq (cd : DatabaseInfo) :
    defaultDatabase cd = { cd with
      InterpolateTables :=
        if cd.InterpolateTables = none then some true else cd.InterpolateTables,
      StringEnclosingChar := fillEmptyOpt "'" cd.StringEnclosingChar,
      StringEscapeChar := fillEmptyOpt "\\" cd.StringEscapeChar,
      ReservedWordEscapeChar := fillEmptyOpt "\"" cd.ReservedWordEscapeChar,
      ParameterPlaceholder := fillEmptyStr "?" cd.ParameterPlaceholder,
      StorageType :=
        if cd.StorageType = "" then "SERVER" else goToUpper cd.StorageType } := by
  simp only [defaultDatabase, fillEmptyOpt, fillEmptyStr]
  by_cases h1 : cd.InterpolateTables = none <;>
    simp only [h1, if_true, if_false, ite_true, ite_false] <;>
  by_cases h2 : cd.StringEnclosingChar = none ∨ cd.StringEnclosingChar = some "" <;>
    simp only [h2, if_true, if_false, ite_true, ite_false] <;>
  by_cases h3 : cd.StringEscapeChar = none ∨ cd.StringEscapeChar = some "" <;>
    simp only [h3, if_true, if_false, ite_true, ite_false] <;>
  by_cases h4 : cd.ReservedWordEscapeChar = none ∨ cd.ReservedWordEscapeChar = some "" <;>
    simp only [h4, if_true, if_false, ite_true, ite_false] <;>
  by_cases h5 : cd.ParameterPlaceholder = "" <;>
    simp only [h5, if_true, if_false, ite_true, ite_false] <;>
  by_cases h6 : cd.StorageType = "" <;>
    simp [h6]

set_option maxHeartbeats 1000000 in
theorem applyTopDefaults_eq (c : Configuration) :
    applyTopDefaults c = { c with
      DefaultDatabaseID := fillEmptyOpt "DEFAULT" c.DefaultDatabaseID,
      DefaultEndpointID := fillEmptyOpt "DEFAULT" c.DefaultEndpointID,
      DefaultNotificationID := fillEmptyOpt "DEFAULT" c.DefaultNotificationID,
      CookieDomain :=
        if c.CookieDomain = none then some "localhost" else c.CookieDomain,
      JWTSecret :=
        if c.JWTSecret = none then some "defaultsecretkey" else c.JWTSecret } := by
  simp only [applyTopDefaults, fillEmptyOpt]
  by_cases h1 : c.DefaultDatabaseID = none ∨ c.DefaultDatabaseID = some "" <;>
    simp only [h1, if_true, if_false, ite_true, ite_false] <;>
  by_cases h2 : c.DefaultEndpointID = none ∨ c.DefaultEndpointID = some "" <;>
    simp only [h2, if_true, if_false, ite_true, ite_false] <;>
  by_cases h3 : c.DefaultNotificationID = none ∨ c.DefaultNotificationID = some "" <;>
    simp only [h3, if_true, if_false, ite_true, ite_false] <;>
  by_cases h4 : c.CookieDomain = none <;>
    simp only [h4, if_true, if_false, ite_true, ite_false] <;>
  by_cases h5 : c.JWTSecret = none <;>
    simp [h5]

/-- Counterexample to C7: the claim says default-fill never overwrites a
user-supplied non-empty value, but `load` upper-cases a non-empty
`StorageType` in place — a record parsed with `StorageType = "file"` comes
out of `load` with `StorageType = "FILE"`. -/
theorem default_fill_storage_type_cex :
    ((load "x.json" (.ok [10])
        (fun _ => some { Databases := some [{ ID := "d1", StorageType := "file" }] })).1.map
      (fun c => c.Databases.map (List.map DatabaseInfo.StorageType)))
      = some (some ["FILE"])
    ∧ ({ ID := "d1", StorageType := "file" } : DatabaseInfo).StorageType = "file"
    ∧ "FILE" ≠ "file" :=
  ⟨by decide, rfl, by decide⟩

/-- C7 (amended): every default assignment of the load pipeline fills a
field only when it is empty or absent — `InterpolateTables := true`,
`StringEnclosingChar := "'"`, `StringEscapeChar := "\"`,
`ReservedWordEscapeChar := quote`, `ParameterPlaceholder := "?"`,
`StorageType := "SERVER"`, the three default-ID fields, `CookieDomain` and
`JWTSecret` — and never replaces a user-supplied non-empty value with the
default, except that a non-empty `StorageType` is upper-cased in place. -/
theorem default_fill_preserves_nonempty :
    (∀ (cd : DatabaseInfo),
      (∀ b, cd.InterpolateTables = some b → (defaultDatabase cd).InterpolateTables = some b)
      ∧ (cd.InterpolateTables = none → (defaultDatabase cd).InterpolateTables = some true)
      ∧ (∀ s, s ≠ "" → cd.StringEnclosingChar = some s →
          (defaultDatabase cd).StringEnclosingChar = some s)
      ∧ ((cd.StringEnclosingChar = none ∨ cd.StringEnclosingChar = some "") →
          (defaultDatabase cd).StringEnclosingChar = some "'")
      ∧ (∀ s, s ≠ "" → cd.StringEscapeChar = some s →
          (defaultDatabase cd).StringEscapeChar = some s)
      ∧ (∀ s, s ≠ "" → cd.ReservedWordEscapeChar = some s →
          (defaultDatabase cd).ReservedWordEscapeChar = some s)
      ∧ (cd.ParameterPlaceholder ≠ "" →
          (defaultDatabase cd).ParameterPlaceholder = cd.ParameterPlaceholder)
      ∧ (cd.ParameterPlaceholder = "" → (defaultDatabase cd).ParameterPlaceholder = "?")
      ∧ (cd.StorageType = "" → (defaultDatabase cd).StorageType = "SERVER")
      ∧ (cd.StorageType ≠ "" → (defaultDatabase cd).StorageType = goToUpper cd.StorageType)
      ∧ (defaultDatabase cd).ID = cd.ID
      ∧ (defaultDatabase cd).ConnectionString = cd.ConnectionString
      ∧ (defaultDatabase cd).DriverName = cd.DriverName)
    ∧ (∀ (c : Configuration),
      (∀ s, s ≠ "" → c.DefaultDatabaseID = some s →
          (applyTopDefaults c).DefaultDatabaseID = some s)
      ∧ (∀ s, s ≠ "" → c.DefaultEndpointID = some s →
          (applyTopDefaults c).DefaultEndpointID = some s)
      ∧ (∀ s, s ≠ "" → c.DefaultNotificationID = some s →
          (applyTopDefaults c).DefaultNotificationID = some s)
      ∧ (∀ s, c.CookieDomain = some s → (applyTopDefaults c).CookieDomain = some s)
      ∧ (∀ s, c.JWTSecret = some s → (applyTopDefaults c).JWTSecret = some s)
      ∧ (c.CookieDomain = none → (applyTopDefaults c).CookieDomain = some "localhost")
      ∧ (c.JWTSecret = none → (applyTopDefaults c).JWTSecret = some "defaultsecretkey")) := by
  constructor
  · intro cd
    rw [defaultDatabase_eq cd]
    refine ⟨?_, ?_, ?_, ?_, ?_, ?_, ?_, ?_, ?_, ?_, rfl, rfl, rfl⟩
    · intro b hval; simp [hval]
    · intro hval; simp [hval]
    · intro s hs hval; simp [fillEmptyOpt, hval, hs]
    · intro hval; rcases hval with h | h <;> simp [fillEmptyOpt, h]
    · intro s hs hval; simp [fillEmptyOpt, hval, hs]
    · intro s hs hval; simp [fillEmptyOpt, hval, hs]
    · intro hval; simp [fillEmptyStr, hval]
    · intro hval; simp [fillEmptyStr, hval]
    · intro hval; simp [hval]
    · intro hval; simp [hval]
  · intro c
    rw [applyTopDefaults_eq c]
    refine ⟨?_, ?_, ?_, ?_, ?_, ?_, ?_⟩
    · intro s hs hval; simp [fillEmptyOpt, hval, hs]
    · intro s hs hval; simp [fillEmptyOpt, hval, hs]
    · intro s hs hval; simp [fillEmptyOpt, hval, hs]
    · intro s hval; simp [hval]
    · intro s hval; simp [hval]
    · intro hval; simp [hval]
    · intro hval; simp [hval]

/-- Witness for C7 (amended): concrete checks — a record with every listed
field user-supplied keeps those values through the database default pass,
and a document with non-empty defaults keeps them through the top-level
default pass. -/
theorem default_fill_preserves_nonempty_witness :
    dbAllSet.InterpolateTables = some false
    ∧ (defaultDatabase dbAllSet).InterpolateTables = some false
    ∧ (defaultDatabase dbAllSet).StringEnclosingChar = some "e"
    ∧ (defaultDatabase dbAllSet).ParameterPlaceholder = "@"
    ∧ cfgDefaultsSet.CookieDomain = some ""
    ∧ (applyTopDefaults cfgDefaultsSet).CookieDomain = some ""
    ∧ (applyTopDefaults cfgDefaultsSet).DefaultDatabaseID = some "db1" := by
  refine ⟨rfl, ?_, ?_, ?_, rfl, ?_, ?_⟩
  · exact (default_fill_preserves_nonempty.1 _).1 false rfl
  · exact (default_fill_preserves_nonempty.1 _).2.2.1 "e" (by decide) rfl
  · exact (default_fill_preserves_nonempty.1 _).2.2.2.2.2.2.1 (by decide)
  · exact (default_fill_preserves_nonempty.2 _).2.2.2.1 "" rfl
  · exact (default_fill_preserves_nonempty.2 _).1 "db1" (by decide) rfl

theorem notifLoop_length (i : Nat) (dn : String) (l : List NotificationInfo) :
    (notifLoop i dn l).length = l.length := by
  induction l generalizing i dn with
  | nil => rfl
  | cons cn rest ih => simp [notifLoop, ih]

theorem notifLoop_get :
    ∀ (l : List NotificationInfo) (start : Nat) (dn : String) (k : Nat)
      (hk : k < l.length),
      (notifLoop start dn l)[k]? = some (
        if (l.get ⟨k, hk⟩).ID = "" then
          { l.get ⟨k, hk⟩ with
              ID := "DEFAULT" ++ (if start + k > 0 then Nat.repr (start + k) else dn) }
        else l.get ⟨k, hk⟩) := by
  intro l
  induction l with
  | nil => intro start dn k hk; simp at hk
  | cons cn rest ih =>
    intro start dn k hk
    cases k with
    | zero => simp [notifLoop]
    | succ k' =>
      simp only [notifLoop, List.getElem?_cons_succ]
      rw [ih (start + 1) (if start > 0 then Nat.repr start else dn) k'
        (by simpa using hk)]
      have h1 : start + 1 + k' = start + (k' + 1) := by omega
      have hpos : 0 < start + (k' + 1) := by omega
      simp [h1, hpos]

theorem applyTopDefaults_notifications (c : Configuration) :
    (applyTopDefaults c).Notifications = c.Notifications := by
  rw [applyTopDefaults_eq]

theorem databasesPass_notifications (c : Configuration) :
    (databasesPass c).Notifications = c.Notifications := by
  cases hd : c.Databases <;> simp [databasesPass, hd]

/-- C8: during `load`, every notification record with an empty ID receives
the synthesized ID `"DEFAULT"` at index 0 and `"DEFAULT" ++ i` (0-based
decimal index) at later indices, while records with non-empty IDs are left
unchanged. -/
theorem notification_id_synthesis :
    ∀ (source : String) (b : Bytes) (unmarshal : Bytes → Option Configuration)
      (parsed : Configuration) (nfs : List NotificationInfo),
      b ≠ [] → unmarshal b = some parsed → parsed.Notifications = some nfs →
      ∃ cfg, (load source (.ok b) unmarshal).1 = some cfg
        ∧ ∃ out, cfg.Notifications = some out
          ∧ out.length = nfs.length
          ∧ ∀ k (hk : k < nfs.length),
              out[k]? = some (
                if (nfs.get ⟨k, hk⟩).ID = "" then
                  { nfs.get ⟨k, hk⟩ with
                      ID := "DEFAULT" ++ (if k = 0 then "" else Nat.repr k) }
                else nfs.get ⟨k, hk⟩) := by
  intro source b unmarshal parsed nfs hb hu hn
  have hload := load_ok source b unmarshal parsed hb hu
  refine ⟨_, by rw [hload], ?_⟩
  have h1 : (databasesPass (applyTopDefaults
      { parsed with «local» := isLocalSource source })).Notifications = some nfs := by
    rw [databasesPass_notifications, applyTopDefaults_notifications]
    exact hn
  refine ⟨notifLoop 0 "" nfs, ?_, notifLoop_length 0 "" nfs, ?_⟩
  · show (notificationsPass _).Notifications = _
    simp [notificationsPass, h1]
  · intro k hk
    rw [notifLoop_get nfs 0 "" k hk]
    have : (if 0 + k > 0 then Nat.repr (0 + k) else "")
        = (if k = 0 then "" else Nat.repr k) := by
      cases k <;> simp
    rw [this]

/-- Witness for C8: two notification records with empty IDs at indices 0
and 1 come out of `load` as `"DEFAULT"` and `"DEFAULT1"`. -/
theorem notification_id_synthesis_witness :
    (([10] : Bytes) ≠ [])
    ∧ (∃ cfg, (load "n.json" (.ok [10])
          (fun _ => some { Notifications := some [{ ID := "" }, { ID := "" }] })).1 = some cfg
        ∧ ∃ out, cfg.Notifications = some out
          ∧ out.length = ([{ ID := "" }, { ID := "" }] : List NotificationInfo).length
          ∧ ∀ k (hk : k < ([{ ID := "" }, { ID := "" }] : List NotificationInfo).length),
              out[k]? = some (
                if (([{ ID := "" }, { ID := "" }] : List NotificationInfo).get ⟨k, hk⟩).ID = "" then
                  { ([{ ID := "" }, { ID := "" }] : List NotificationInfo).get ⟨k, hk⟩ with
                      ID := "DEFAULT" ++ (if k = 0 then "" else Nat.repr k) }
                else ([{ ID := "" }, { ID := "" }] : List NotificationInfo).get ⟨k, hk⟩))
    ∧ ((load "n.json" (.ok [10])
          (fun _ => some { Notifications := some [{ ID := "" }, { ID := "" }] })).1.map
        (fun c => c.Notifications.map (List.map NotificationInfo.ID)))
        = some (some ["DEFAULT", "DEFAULT1"]) :=
  ⟨by decide,
    notification_id_synthesis "n.json" [10] _ _ _ (by decide) rfl rfl,
    by decide⟩

theorem flagLoop_eq_none (key : String) :
    ∀ (l : List Flag), (∀ f ∈ l, flagVariantMatch key f = false) →
      flagLoop key l = none := by
  intro l h
  induction l with
  | nil => rfl
  | cons f rest ih =>
    simp only [flagLoop]
    rw [if_neg (by simp [h f (List.mem_cons_self f rest)])]
    exact ih (fun g hg => h g (List.mem_cons_of_mem _ hg))

theorem flagLoop_first (key : String) :
    ∀ (l : List Flag) (i : Nat) (hi : i < l.length),
      flagVariantMatch key (l.get ⟨i, hi⟩) = true →
      (∀ j (hj : j < l.length), j < i → flagVariantMatch key (l.get ⟨j, hj⟩) = false) →
      flagLoop key l = some (l.get ⟨i, hi⟩) := by
  intro l
  induction l with
  | nil => intro i hi; simp at hi
  | cons f rest ih =>
    intro i hi hmatch hbefore
    cases i with
    | zero =>
      have hm0 : flagVariantMatch key f = true := hmatch
      simp only [flagLoop, hm0, if_true]
      rfl
    | succ j =>
      have hf : flagVariantMatch key f = false :=
        hbefore 0 (Nat.succ_pos _) (Nat.succ_pos j)
      simp only [flagLoop]
      rw [if_neg (by simp [hf])]
      exact ih j (by simpa using hi) hmatch
        (fun k hk hki => hbefore (k + 1) (by omega) (by omega))

/-- Counterexample to C9: the claim reads the normalization as the stored
key with underscores AND dashes stripped before the case-insensitive
comparison.  For the stored key `"A_-B"` that normalization yields
`"AB"`, which matches the request `"ab"` — yet `Flag` returns the
zero-value flag, because the code only ever strips one separator kind at a
time (`"A-B"` and `"A_B"`), never both. -/
theorem flag_strip_both_cex :
    specFlagKeyStripped "A_-B" = "AB"
    ∧ eqFold "ab" (specFlagKeyStripped "A_-B") = true
    ∧ Cfg.Configuration.Flag { Flags := some [{ Key := "A_-B", Value := some "v" }] } "ab"
        = { Key := "ab", Value := none }
    ∧ ({ Key := "ab", Value := none } : Flag) ≠ { Key := "A_-B", Value := some "v" } :=
  ⟨by decide, by decide, by decide, by decide⟩

/-- C9 (amended): `Flag(key)` trims the requested key and compares it
case-insensitively against each stored key twice — once with all
underscores removed and once with all dashes removed, one separator kind
at a time, never both at once and never stripping the requested key.  The
first flag matching either variant wins (document order); when nothing
matches, a zero-value flag with the trimmed request as key and an absent
value is returned, never an error. -/
theorem flag_variant_lookup :
    (∀ (key : String) (f : Flag),
      flagVariantMatch key f
        = (eqFold key (removeAllChar f.Key '_') || eqFold key (removeAllChar f.Key '-')))
    ∧ ∀ (c : Configuration) (key : String),
      (c.Flags = none → c.Flag key = { Key := goTrimSpace key, Value := none })
      ∧ (∀ flgs, c.Flags = some flgs →
          ((∀ f ∈ flgs, flagVariantMatch (goTrimSpace key) f = false) →
            c.Flag key = { Key := goTrimSpace key, Value := none })
          ∧ (∀ i (hi : i < flgs.length),
              flagVariantMatch (goTrimSpace key) (flgs.get ⟨i, hi⟩) = true →
              (∀ j (hj : j < flgs.length), j < i →
                flagVariantMatch (goTrimSpace key) (flgs.get ⟨j, hj⟩) = false) →
              c.Flag key = flgs.get ⟨i, hi⟩)) := by
  constructor
  · intro key f
    simp [flagVariantMatch]
  · intro c key
    refine ⟨fun h => by simp [Configuration.Flag, h], ?_⟩
    intro flgs hflgs
    constructor
    · intro h
      simp only [Configuration.Flag, hflgs]
      rw [flagLoop_eq_none (goTrimSpace key) flgs h]
    · intro i hi hm hb
      simp only [Configuration.Flag, hflgs]
      rw [flagLoop_first (goTrimSpace key) flgs i hi hm hb]

/-- Witness for C9 (amended): the stored key `"API_KEY"` is found by the
request `"apikey"` (underscore-stripped variant), `"API-KEY"` likewise
(dash-stripped variant), and a miss returns the zero-value flag with the
trimmed request. -/
theorem flag_variant_lookup_witness :
    flagVariantMatch "apikey" { Key := "API_KEY", Value := some "v" } = true
    ∧ Cfg.Configuration.Flag { Flags := some [{ Key := "API_KEY", Value := some "v" }] }
        "apikey" = { Key := "API_KEY", Value := some "v" }
    ∧ Cfg.Configuration.Flag { Flags := some [{ Key := "API-KEY", Value := some "w" }] }
        "apikey" = { Key := "API-KEY", Value := some "w" }
    ∧ Cfg.Configuration.Flag { Flags := some [{ Key := "X", Value := some "v" }] }
        " miss " = { Key := "miss", Value := none } := by
  refine ⟨by decide, ?_, ?_, ?_⟩
  · exact ((flag_variant_lookup.2
        { Flags := some [{ Key := "API_KEY", Value := some "v" }] } "apikey").2
        [{ Key := "API_KEY", Value := some "v" }] rfl).2 0 (by decide) (by decide)
      (fun j hj hji => absurd hji (by omega))
  · exact ((flag_variant_lookup.2
        { Flags := some [{ Key := "API-KEY", Value := some "w" }] } "apikey").2
        [{ Key := "API-KEY", Value := some "w" }] rfl).2 0 (by decide) (by decide)
      (fun j hj hji => absurd hji (by omega))
  · exact ((flag_variant_lookup.2
        { Flags := some [{ Key := "X", Value := some "v" }] } " miss ").2
        [{ Key := "X", Value := some "v" }] rfl).1 (by decide)

theorem refFind_cases (h : Heap α) (pred : α → Bool) :
    ∀ addrs, (refFind h pred addrs = (none, h) ∧ refFound h pred addrs = none)
      ∨ ∃ v, refFound h pred addrs = some v
          ∧ refFind h pred addrs = (some h.length, h ++ [v]) := by
  intro addrs
  induction addrs with
  | nil => exact Or.inl ⟨rfl, rfl⟩
  | cons a rest ih =>
    cases hr : readCell h a with
    | none => exact Or.inl ⟨by simp [refFind, hr], by simp [refFound, hr]⟩
    | some v =>
      by_cases hp : pred v
      · exact Or.inr ⟨v, by simp [refFound, hr, hp], by simp [refFind, hr, hp]⟩
      · rcases ih with ⟨h1, h2⟩ | ⟨w, h1, h2⟩
        · exact Or.inl ⟨by simp [refFind, hr, hp, h1], by simp [refFound, hr, hp, h2]⟩
        · exact Or.inr ⟨w, by simp [refFound, hr, hp, h1], by simp [refFind, hr, hp, h2]⟩

theorem readCell_append (h : Heap α) (v : α) {a : Nat} (ha : a < h.length) :
    readCell (h ++ [v]) a = readCell h a := by
  simp only [readCell]
  exact List.getElem?_append_left ha

theorem readCell_concat (h : Heap α) (v : α) :
    readCell (h ++ [v]) h.length = some v :=
  List.getElem?_concat_length h v

theorem readCell_write_ne (h : Heap α) (p : Nat) (x : α) {a : Nat} (ha : a ≠ p) :
    readCell (writeCell h p x) a = readCell h a := by
  simp only [readCell, writeCell]
  exact List.getElem?_set_ne (Ne.symm ha)

theorem refFound_congr (pred : α → Bool) :
    ∀ (addrs : List Nat) (h₁ h₂ : Heap α),
      (∀ a ∈ addrs, readCell h₁ a = readCell h₂ a) →
      refFound h₁ pred addrs = refFound h₂ pred addrs := by
  intro addrs
  induction addrs with
  | nil => intro h₁ h₂ _; rfl
  | cons a rest ih =>
    intro h₁ h₂ hh
    have ha := hh a (List.mem_cons_self a rest)
    simp only [refFound, ha]
    cases readCell h₂ a with
    | none => rfl
    | some v =>
      by_cases hp : pred v <;> simp only [hp, if_true, if_false]
      exact ih h₁ h₂ (fun b hb => hh b (List.mem_cons_of_mem _ hb))

/-- C10: the by-ID lookup accessors iterate with `for _, v := range slice`
and return `&v` — a pointer to the per-iteration copy, never to the slice
element.  In the heap model: the returned address is fresh (distinct from
every collection cell), the fresh cell holds a copy of the matched record,
the lookup itself leaves the collection cells untouched, assigning any
value through the returned address leaves the collection unchanged, and an
identical second lookup still finds the original stored values.
`GetDatabaseInfoRef` and `GetEndpointInfoRef` are the two instances of the
loop, with the predicates `v.ID == id` and `strings.EqualFold(k, ep.ID)`
respectively. -/
theorem lookup_returns_copy :
    (∀ (α : Type) (h : Heap α) (pred : α → Bool) (addrs : List Nat),
      (∀ a ∈ addrs, a < h.length) →
      (∀ a, a < h.length → readCell (refFind h pred addrs).2 a = readCell h a)
      ∧ ∀ p, (refFind h pred addrs).1 = some p →
          p ∉ addrs
          ∧ readCell (refFind h pred addrs).2 p = refFound h pred addrs
          ∧ (∀ x, ∀ a ∈ addrs,
              readCell (writeCell (refFind h pred addrs).2 p x) a = readCell h a)
          ∧ (∀ x, refFound (writeCell (refFind h pred addrs).2 p x) pred addrs
              = refFound h pred addrs))
    ∧ (∀ (h : Heap DatabaseInfo) (addrs : List Nat) (id : String),
        GetDatabaseInfoRef h addrs id = refFind h (dbPred id) addrs)
    ∧ (∀ (h : Heap EndpointInfo) (addrs : List Nat) (k : String),
        GetEndpointInfoRef h addrs k = refFind h (epPred k) addrs) := by
  refine ⟨?_, fun _ _ _ => rfl, fun _ _ _ => rfl⟩
  intro α h pred addrs hvalid
  rcases refFind_cases h pred addrs with ⟨h1, _⟩ | ⟨v, hf, h1⟩
  · rw [h1]
    exact ⟨fun a _ => rfl, fun p hp => Option.noConfusion hp⟩
  · rw [h1]
    constructor
    · intro a ha
      exact readCell_append h v ha
    · intro p hp
      have hpl : p = h.length := by simpa using hp.symm
      subst hpl
      refine ⟨?_, ?_, ?_, ?_⟩
      · intro hmem
        exact absurd (hvalid _ hmem) (Nat.lt_irrefl _)
      · rw [readCell_concat h v, hf]
      · intro x a hmem
        have ha := hvalid a hmem
        rw [readCell_write_ne _ _ _ (Nat.ne_of_lt ha), readCell_append h v ha]
      · intro x
        apply refFound_congr
        intro a hmem
        have ha := hvalid a hmem
        rw [readCell_write_ne _ _ _ (Nat.ne_of_lt ha), readCell_append h v ha]

/-- Witness for C10: the two-cell heap `dbHeapEx` (IDs `"A"`, `"B"`) with
the collection at addresses 0 and 1, looked up with the predicate of
`GetDatabaseInfo` for `"B"`: the consequent holds at the returned fresh
address 2. -/
theorem lookup_returns_copy_witness :
    (∀ a ∈ ([0, 1] : List Nat), a < dbHeapEx.length)
    ∧ (refFind dbHeapEx (dbPred "B") [0, 1]).1 = some 2
    ∧ (2 ∉ ([0, 1] : List Nat)
        ∧ readCell (refFind dbHeapEx (dbPred "B") [0, 1]).2 2
            = refFound dbHeapEx (dbPred "B") [0, 1]
        ∧ (∀ x, ∀ a ∈ ([0, 1] : List Nat),
            readCell (writeCell (refFind dbHeapEx (dbPred "B") [0, 1]).2 2 x) a
              = readCell dbHeapEx a)
        ∧ (∀ x, refFound (writeCell (refFind dbHeapEx (dbPred "B") [0, 1]).2 2 x)
              (dbPred "B") [0, 1]
            = refFound dbHeapEx (dbPred "B") [0, 1])) :=
  ⟨by decide, by decide,
    (lookup_returns_copy.1 DatabaseInfo dbHeapEx (dbPred "B") [0, 1] (by decide)).2
      2 (by decide)⟩

end Cfg
